import Mathlib

/-!
Verification development for the elinux GStreamer video player
(`packages/video_player/elinux/gst_video_player.cc` / `.h`).

The C++ class `GstVideoPlayer` is shallowly embedded here:
* its scalar member fields become the `PlayerState` structure;
* engine calls (GStreamer / libav) are external collaborators and are
  modelled by oracle inputs (the `Engine` structure, probe results,
  delivered buffers);
* `std::string` values are modelled as `List Char` where character-level
  parsing matters and as `String` where only whole values are compared;
* fallible C++ operations (`std::stoi` throwing, dereferencing the
  `end()` iterator of `std::lower_bound`) are modelled with `Option`.
-/

namespace GstPlayer

/-- Events emitted towards external collaborators: the
`VideoPlayerStreamHandler` notifications and the fire-and-forget
engine requests (`gst_element_seek`, the `"mute"` property write). -/
inductive PlayerEvent where
  | NotifyInitialized
  | NotifyFrameDecoded
  | NotifyCompleted
  | SeekTo (posNs : Int) (rate : ℚ)
  | SetMute (m : Bool)
deriving DecidableEq

/-- Oracle for the engine queries used by the player: result of
`gst_element_query_position` (ns), `gst_element_query_duration` (ns),
and the boolean result of `gst_element_seek`.  `none` models a failed
query. -/
structure Engine where
  queryPositionNs : Option Int
  queryDurationNs : Option Int
  seekOk : Bool

/-- The mutable member fields of `GstVideoPlayer` that the verified
operations read or write (gst_video_player.h lines 70-84).
`width`/`height` are the `int32_t width_`/`height_` members, `buffer`
is `gst_.buffer` (the most recently delivered frame, as its byte
contents), `pixels` is the `pixels_` array contents (bytes), and
`has_video_src` models `gst_.video_src != nullptr`. -/
structure PlayerState where
  uri : List Char
  aspect_ratio : String
  width : Int
  height : Int
  volume : ℚ
  playback_rate : ℚ
  mute : Bool
  is_stream : Bool
  is_camera : Bool
  auto_repeat : Bool
  is_completed : Bool
  is_inconsistent : Bool
  has_video_src : Bool
  buffer : Option (List Nat)
  pixels : List Nat
deriving DecidableEq

/-- Member-initialiser defaults of `GstVideoPlayer` (header lines
72-84).  `width_`/`height_` and `pixels_` are uninitialised in the
source for non-camera sources until the pipeline prerolls; they are
given neutral values here and no theorem below depends on them. -/
def initState (uri : List Char) : PlayerState :=
  { uri := uri
    aspect_ratio := ""
    width := 0
    height := 0
    volume := 1
    playback_rate := 1
    mute := false
    is_stream := false
    is_camera := false
    auto_repeat := false
    is_completed := false
    is_inconsistent := false
    has_video_src := true
    buffer := none
    pixels := [] }

/-! ## ResolutionCatalog
`const std::vector<int> resolution_values_ {1080,1920,2160,3480};`
(gst_video_player.h line 89) and
`NormalizeResolutionValue` (gst_video_player.cc lines 368-370). -/

/-- The fixed ascending reference resolutions. -/
def resolution_values : List Int := [1080, 1920, 2160, 3480]

/-- `NormalizeResolutionValue` returns
`*std::lower_bound(resolution_values_.begin(), resolution_values_.end(), res_val)`:
the first catalog element not less than the input.  When the input
exceeds every catalog entry, `lower_bound` yields `end()` and the
dereference is undefined behaviour, modelled as `none`. -/
def NormalizeResolutionValue (v : Int) : Option Int :=
  resolution_values.find? (fun r => decide (v ≤ r))

/-- C3: for every input not exceeding the catalog maximum 3480,
`NormalizeResolutionValue` returns the smallest catalog element that is
greater than or equal to the input; in particular
`normalize 1000 = 1080`, `normalize 1920 = 1920`, `normalize 2000 = 2160`. -/
theorem NormalizeResolutionValue_spec :
    (∀ v : Int, v ≤ 3480 →
      ∃ r, NormalizeResolutionValue v = some r ∧
        r ∈ resolution_values ∧ v ≤ r ∧
        ∀ r' ∈ resolution_values, v ≤ r' → r ≤ r') ∧
    NormalizeResolutionValue 1000 = some 1080 ∧
    NormalizeResolutionValue 1920 = some 1920 ∧
    NormalizeResolutionValue 2000 = some 2160 := by
  refine ⟨?_, by decide, by decide, by decide⟩
  intro v hv
  by_cases h1 : v ≤ 1080
  · refine ⟨1080, ?_, by simp [resolution_values], h1, ?_⟩
    · simp [NormalizeResolutionValue, resolution_values, List.find?, h1]
    · intro r' hr' _
      simp [resolution_values] at hr'
      rcases hr' with h | h | h | h <;> omega
  · by_cases h2 : v ≤ 1920
    · refine ⟨1920, ?_, by simp [resolution_values], h2, ?_⟩
      · simp [NormalizeResolutionValue, resolution_values, List.find?, h1, h2]
      · intro r' hr' hvr'
        simp [resolution_values] at hr'
        rcases hr' with h | h | h | h <;> omega
    · by_cases h3 : v ≤ 2160
      · refine ⟨2160, ?_, by simp [resolution_values], h3, ?_⟩
        · simp [NormalizeResolutionValue, resolution_values, List.find?, h1, h2, h3]
        · intro r' hr' hvr'
          simp [resolution_values] at hr'
          rcases hr' with h | h | h | h <;> omega
      · refine ⟨3480, ?_, by simp [resolution_values], hv, ?_⟩
        · simp [NormalizeResolutionValue, resolution_values, List.find?, h1, h2, h3, hv]
        · intro r' hr' hvr'
          simp [resolution_values] at hr'
          rcases hr' with h | h | h | h <;> omega

/-- Witness for C3 at the concrete input 2000. -/
theorem NormalizeResolutionValue_spec_witness :
    ∃ r, NormalizeResolutionValue 2000 = some r ∧
      r ∈ resolution_values ∧ (2000 : Int) ≤ r ∧
      ∀ r' ∈ resolution_values, (2000 : Int) ≤ r' → r ≤ r' :=
  NormalizeResolutionValue_spec.1 2000 (by decide)

/-! ## PreflightProbe
`GstVideoPlayer::CheckInconsistency` (gst_video_player.cc lines 70-153).
Opening the container, finding the first video stream and decoding
packets until one is accepted are libav calls; the decision logic of
lines 132-145 consumes the resulting coded dimensions.  The probe
outcome is modelled as `Option (Int × Int)`: `none` when any earlier
step fails or no video stream exists (every such path returns with the
state untouched), `some (coded_width, coded_height)` otherwise. -/

/-- Decision logic of `CheckInconsistency`, lines 132-145: if either
coded dimension is absent from `resolution_values_` (exact membership
via `std::find`), set `is_inconsistent_` and set `aspect_ratio_` to
`"16/9"` when `coded_height > coded_width` and to `"9/16"` otherwise. -/
def CheckInconsistency (st : PlayerState) (probe : Option (Int × Int)) : PlayerState :=
  match probe with
  | none => st
  | some (cw, ch) =>
    if !(resolution_values.contains cw) || !(resolution_values.contains ch) then
      { st with
        is_inconsistent := true
        aspect_ratio := if ch > cw then "16/9" else "9/16" }
    else st

/-- C1 counterexample: with coded dimensions 100x200 (both absent from
the catalog, coded height > coded width) the probe marks the source
inconsistent but derives the aspect hint `"16/9"`, not the `"9/16"`
the claim states. -/
theorem CheckInconsistency_claim_counterexample :
    (200 : Int) > 100 ∧
    resolution_values.contains (100 : Int) = false ∧
    resolution_values.contains (200 : Int) = false ∧
    (CheckInconsistency (initState []) (some (100, 200))).is_inconsistent = true ∧
    (CheckInconsistency (initState []) (some (100, 200))).aspect_ratio = "16/9" ∧
    (CheckInconsistency (initState []) (some (100, 200))).aspect_ratio ≠ "9/16" := by
  refine ⟨by decide, by decide, by decide, ?_, ?_, ?_⟩ <;>
    simp [CheckInconsistency, initState, resolution_values]

/-- C1 amended: if the probe obtains coded dimensions and either is
absent from the reference set, the source is marked inconsistent and
the aspect hint is `16/9` when coded height > coded width and `9/16`
otherwise. -/
theorem CheckInconsistency_amended (st : PlayerState) (cw ch : Int)
    (h : resolution_values.contains cw = false ∨ resolution_values.contains ch = false) :
    (CheckInconsistency st (some (cw, ch))).is_inconsistent = true ∧
    (CheckInconsistency st (some (cw, ch))).aspect_ratio =
      (if ch > cw then "16/9" else "9/16") := by
  have hprop : cw ∉ resolution_values ∨ ch ∉ resolution_values := by
    rcases h with h | h
    · exact Or.inl (by simpa using h)
    · exact Or.inr (by simpa using h)
  simp only [CheckInconsistency]
  rw [if_pos (by simpa using hprop)]
  exact ⟨rfl, rfl⟩

/-- Witness for the amended C1 at coded dimensions 100x200. -/
theorem CheckInconsistency_amended_witness :
    (CheckInconsistency (initState []) (some (100, 200))).is_inconsistent = true ∧
    (CheckInconsistency (initState []) (some (100, 200))).aspect_ratio =
      (if (200 : Int) > 100 then "16/9" else "9/16") :=
  CheckInconsistency_amended (initState []) 100 200 (Or.inl (by decide))

/-! ## PlaybackController: duration and position
`GetDuration` (lines 277-289) and `GetCurrentPosition` (lines 291-322). -/

/-- `GST_MSECOND` in nanoseconds. -/
def GST_MSECOND : Int := 1000000

/-- `GstVideoPlayer::GetDuration` (lines 277-289): 0 for stream or
camera sources; otherwise query the engine, returning -1 on query
failure and the queried nanosecond value divided by `GST_MSECOND`
otherwise (C++ integer division truncates toward zero). -/
def GetDuration (eng : Engine) (st : PlayerState) : Int :=
  if st.is_stream || st.is_camera then 0
  else
    match eng.queryDurationNs with
    | none => -1
    | some d => d.tdiv GST_MSECOND

/-- C8: `GetDuration` returns 0 for every Camera or NetworkStream
source, and for LocalFile sources returns the negative sentinel -1
(distinct from 0) when the engine duration query fails. -/
theorem GetDuration_spec :
    (∀ eng st, st.is_stream = true ∨ st.is_camera = true → GetDuration eng st = 0) ∧
    (∀ eng st, st.is_stream = false → st.is_camera = false →
      eng.queryDurationNs = none →
      GetDuration eng st = -1 ∧ GetDuration eng st < 0) := by
  constructor
  · intro eng st h
    rcases h with h | h <;> simp [GetDuration, h]
  · intro eng st hs hc hq
    simp [GetDuration, hs, hc, hq]

/-- Witness for C8: a NetworkStream source yields 0 and a LocalFile
source with a failed duration query yields -1. -/
theorem GetDuration_spec_witness :
    GetDuration ⟨none, none, true⟩ { initState [] with is_stream := true } = 0 ∧
    GetDuration ⟨none, none, true⟩ (initState []) = -1 := by
  constructor
  · exact GetDuration_spec.1 ⟨none, none, true⟩ _ (Or.inl rfl)
  · exact (GetDuration_spec.2 ⟨none, none, true⟩ (initState []) rfl rfl rfl).1

/-- `GstVideoPlayer::SetSeek` (lines 261-275): refused for stream and
camera sources; otherwise issues `gst_element_seek` to
`position * 1000 * 1000` nanoseconds at the current playback rate and
returns its boolean result.  The issued request is recorded as a
`SeekTo` event; `eng.seekOk` is the engine's reply. -/
def SetSeek (eng : Engine) (st : PlayerState) (position : Int) :
    Bool × PlayerState × List PlayerEvent :=
  if st.is_stream || st.is_camera then (false, st, [])
  else (eng.seekOk, st, [PlayerEvent.SeekTo (position * 1000 * 1000) st.playback_rate])

/-- `GstVideoPlayer::GetCurrentPosition` (lines 291-322): returns 0
immediately for stream and camera sources; returns -1 when the engine
position query fails (before touching the completion flag); otherwise
drains the completion flag under `mutex_event_completed_` — if it was
set, clears it, notifies `OnNotifyCompleted` and, when `auto_repeat_`
is set, calls `SetSeek 0`.  Returns the queried position divided by
`GST_MSECOND`. -/
def GetCurrentPosition (eng : Engine) (st : PlayerState) :
    Int × PlayerState × List PlayerEvent :=
  if st.is_stream || st.is_camera then (0, st, [])
  else
    match eng.queryPositionNs with
    | none => (-1, st, [])
    | some pos =>
      if st.is_completed then
        let st1 := { st with is_completed := false }
        if st1.auto_repeat then
          let r := SetSeek eng st1 0
          (pos.tdiv GST_MSECOND, r.2.1, PlayerEvent.NotifyCompleted :: r.2.2)
        else
          (pos.tdiv GST_MSECOND, st1, [PlayerEvent.NotifyCompleted])
      else
        (pos.tdiv GST_MSECOND, st, [])

/-- `GstVideoPlayer::SetPlaybackRate` (lines 227-259): refused for
stream/camera sources, with no source element, and for `rate ≤ 0`;
then reads the current position (which drains the completion flag) and
fails if that fails; then issues a flushing `gst_element_seek` at the
new rate to the current position; on success records the rate, sets
`mute_ = rate < 0.5 || rate > 2` and writes the `"mute"` property. -/
def SetPlaybackRate (eng : Engine) (st : PlayerState) (rate : ℚ) :
    Bool × PlayerState × List PlayerEvent :=
  if st.is_stream || st.is_camera then (false, st, [])
  else if !st.has_video_src then (false, st, [])
  else if rate ≤ 0 then (false, st, [])
  else
    let q := GetCurrentPosition eng st
    if q.1 < 0 then (false, q.2.1, q.2.2)
    else
      let seekEv := PlayerEvent.SeekTo (q.1 * GST_MSECOND) rate
      if !eng.seekOk then (false, q.2.1, q.2.2 ++ [seekEv])
      else
        let m : Bool := decide (rate < 1/2) || decide (rate > 2)
        (true,
         { q.2.1 with playback_rate := rate, mute := m },
         q.2.2 ++ [seekEv, PlayerEvent.SetMute m])

/-- C4: `SetPlaybackRate` returns false with the whole state (hence
the recorded rate and mute) unchanged and no engine interaction for
Camera/NetworkStream sources and, for LocalFile sources, whenever
`rate ≤ 0`; when it succeeds, mute is true exactly when the new rate
is below 1/2 or above 2. -/
theorem SetPlaybackRate_spec :
    (∀ eng st rate, st.is_stream = true ∨ st.is_camera = true →
      SetPlaybackRate eng st rate = (false, st, [])) ∧
    (∀ eng st rate, st.is_stream = false → st.is_camera = false → rate ≤ 0 →
      SetPlaybackRate eng st rate = (false, st, [])) ∧
    (∀ eng st rate, (SetPlaybackRate eng st rate).1 = true →
      ((SetPlaybackRate eng st rate).2.1.mute = true ↔ (rate < 1/2 ∨ rate > 2)) ∧
      (SetPlaybackRate eng st rate).2.1.playback_rate = rate) := by
  refine ⟨?_, ?_, ?_⟩
  · intro eng st rate h
    rcases h with h | h <;> simp [SetPlaybackRate, h]
  · intro eng st rate hs hc hr
    by_cases hv : st.has_video_src <;>
      simp [SetPlaybackRate, hs, hc, hr, hv]
  · intro eng st rate hok
    by_cases hsc : st.is_stream || st.is_camera
    · simp [SetPlaybackRate, hsc] at hok
    · by_cases hv : st.has_video_src
      · by_cases hr : rate ≤ 0
        · simp [SetPlaybackRate, hsc, hv, hr] at hok
        · by_cases hq : (GetCurrentPosition eng st).1 < 0
          · simp [SetPlaybackRate, hsc, hv, hr, hq] at hok
          · by_cases hseek : eng.seekOk
            · simp [SetPlaybackRate, hsc, hv, hr, hq, hseek]
            · simp [SetPlaybackRate, hsc, hv, hr, hq, hseek] at hok
      · simp [SetPlaybackRate, hsc, hv] at hok

/-- Witness for C4: a NetworkStream source refuses rate 3; a LocalFile
source with a healthy engine accepts rate 3 and mutes (3 > 2). -/
theorem SetPlaybackRate_spec_witness :
    SetPlaybackRate ⟨some 0, none, true⟩ { initState [] with is_stream := true } 3 =
      (false, { initState [] with is_stream := true }, []) ∧
    SetPlaybackRate ⟨some 0, none, true⟩ (initState []) 0 = (false, initState [], []) ∧
    ((SetPlaybackRate ⟨some 0, none, true⟩ (initState []) 3).2.1.mute = true ↔
      ((3 : ℚ) < 1/2 ∨ (3 : ℚ) > 2)) := by
  refine ⟨?_, ?_, ?_⟩
  · exact SetPlaybackRate_spec.1 ⟨some 0, none, true⟩ _ 3 (Or.inl rfl)
  · exact SetPlaybackRate_spec.2.1 ⟨some 0, none, true⟩ (initState []) 0 rfl rfl le_rfl
  · exact (SetPlaybackRate_spec.2.2 ⟨some 0, none, true⟩ (initState []) 3 (by decide)).1

/-! ## CompletionMonitor
The `GST_MESSAGE_EOS` case of `HandleGstMessage` (lines 687-692) sets
`is_completed_` under `mutex_event_completed_`; the drain block inside
`GetCurrentPosition` (lines 308-319) consumes it. -/

/-- The `GST_MESSAGE_EOS` branch of `GstVideoPlayer::HandleGstMessage`
(lines 687-692): record completion.  The warning/error branches only
log and are omitted; no other branch touches player state. -/
def HandleGstMessageEos (st : PlayerState) : PlayerState :=
  { st with is_completed := true }

/-- The externally observable interactions of this layer that C5/C10
range over: an end-of-stream bus message or a host position query. -/
inductive PlayerAction where
  | eos
  | queryPos
deriving DecidableEq

/-- Run a sequence of bus messages and position queries against the
player, collecting all emitted events. -/
def runTrace (eng : Engine) (st : PlayerState) :
    List PlayerAction → PlayerState × List PlayerEvent
  | [] => (st, [])
  | PlayerAction.eos :: rest =>
    let r := runTrace eng (HandleGstMessageEos st) rest
    (r.1, r.2)
  | PlayerAction.queryPos :: rest =>
    let q := GetCurrentPosition eng st
    let r := runTrace eng q.2.1 rest
    (r.1, q.2.2 ++ r.2)

/-- Recognizer for the completion notification. -/
def isNotifyCompleted : PlayerEvent → Bool
  | PlayerEvent.NotifyCompleted => true
  | _ => false

/-- Recognizer for a seek request to position 0. -/
def isSeekToZero : PlayerEvent → Bool
  | PlayerEvent.SeekTo p _ => decide (p = 0)
  | _ => false

/-- A drain (successful position query) on a clear completion flag
reports nothing and leaves the state untouched. -/
lemma GetCurrentPosition_not_completed (eng : Engine) (st : PlayerState)
    (h : st.is_completed = false) :
    (GetCurrentPosition eng st).2.1 = st ∧ (GetCurrentPosition eng st).2.2 = [] := by
  by_cases hsc : st.is_stream || st.is_camera
  · simp [GetCurrentPosition, hsc]
  · cases hq : eng.queryPositionNs <;> simp [GetCurrentPosition, hsc, hq, h]

/-- A whole trace of position queries from a flag-clear state emits
nothing and keeps the state. -/
lemma runTrace_queryPos_not_completed (eng : Engine) (st : PlayerState)
    (h : st.is_completed = false) (k : Nat) :
    runTrace eng st (List.replicate k PlayerAction.queryPos) = (st, []) := by
  induction k with
  | zero => simp [runTrace]
  | succ n ih =>
    have hst := GetCurrentPosition_not_completed eng st h
    simp only [List.replicate_succ, runTrace]
    rw [hst.1, hst.2, ih]
    simp

/-- The first successful drain after an EOS on a LocalFile player:
a completion notification, plus a single seek-to-zero exactly when
auto-repeat is on, and the flag ends up clear with the rest of the
state intact. -/
lemma GetCurrentPosition_drain (eng : Engine) (st : PlayerState) (pos : Int)
    (hq : eng.queryPositionNs = some pos)
    (hs : st.is_stream = false) (hc : st.is_camera = false)
    (hcomp : st.is_completed = true) :
    (GetCurrentPosition eng st).2.1 = { st with is_completed := false } ∧
    (GetCurrentPosition eng st).2.2 =
      (if st.auto_repeat then
        [PlayerEvent.NotifyCompleted, PlayerEvent.SeekTo 0 st.playback_rate]
      else [PlayerEvent.NotifyCompleted]) := by
  by_cases har : st.auto_repeat <;>
    simp [GetCurrentPosition, SetSeek, hq, hs, hc, hcomp, har]

/-- C5: an end-of-stream notification sets the completion flag; a
drain with the flag clear reports nothing and changes nothing; and
from a drained LocalFile player, one end-of-stream notification
followed by any positive number of successful position queries
produces exactly one completion notification and exactly one
seek-to-zero when auto-repeat is enabled, zero otherwise. -/
theorem completion_drain_spec :
    (∀ st, (HandleGstMessageEos st).is_completed = true) ∧
    (∀ eng st, st.is_completed = false →
      (GetCurrentPosition eng st).2.1 = st ∧ (GetCurrentPosition eng st).2.2 = []) ∧
    (∀ eng st (k : Nat) pos, eng.queryPositionNs = some pos →
      st.is_stream = false → st.is_camera = false → st.is_completed = false →
      ((runTrace eng st
          (PlayerAction.eos :: List.replicate (k + 1) PlayerAction.queryPos)).2.countP
          (fun e => isNotifyCompleted e) = 1 ∧
       (runTrace eng st
          (PlayerAction.eos :: List.replicate (k + 1) PlayerAction.queryPos)).2.countP
          (fun e => isSeekToZero e) = (if st.auto_repeat then 1 else 0))) := by
  refine ⟨fun st => rfl, fun eng st h => GetCurrentPosition_not_completed eng st h, ?_⟩
  intro eng st k pos hq hs hc hcomp
  have hd := GetCurrentPosition_drain eng (HandleGstMessageEos st) pos hq hs hc rfl
  have hrest :
      runTrace eng (GetCurrentPosition eng (HandleGstMessageEos st)).2.1
        (List.replicate k PlayerAction.queryPos) =
      ((GetCurrentPosition eng (HandleGstMessageEos st)).2.1, []) := by
    rw [hd.1]
    exact runTrace_queryPos_not_completed eng _ rfl k
  have hrun :
      (runTrace eng st
        (PlayerAction.eos :: List.replicate (k + 1) PlayerAction.queryPos)).2 =
      (GetCurrentPosition eng (HandleGstMessageEos st)).2.2 := by
    simp only [runTrace, List.replicate_succ]
    rw [hrest]
    simp
  rw [hrun, hd.2]
  by_cases har : st.auto_repeat <;>
    simp [HandleGstMessageEos, har, isNotifyCompleted, isSeekToZero, List.countP_cons]

/-- Witness for C5: one EOS then one position query on an auto-repeat
LocalFile player reports exactly one completion and one seek to 0. -/
theorem completion_drain_spec_witness :
    ((runTrace ⟨some 7, none, true⟩ { initState [] with auto_repeat := true }
        (PlayerAction.eos :: List.replicate 1 PlayerAction.queryPos)).2.countP
        (fun e => isNotifyCompleted e) = 1 ∧
     (runTrace ⟨some 7, none, true⟩ { initState [] with auto_repeat := true }
        (PlayerAction.eos :: List.replicate 1 PlayerAction.queryPos)).2.countP
        (fun e => isSeekToZero e) =
        (if ({ initState [] with auto_repeat := true } : PlayerState).auto_repeat
         then 1 else 0)) :=
  completion_drain_spec.2.2 ⟨some 7, none, true⟩
    { initState [] with auto_repeat := true } 0 7 rfl rfl rfl rfl

/-- C10: for Camera and NetworkStream sources every position query
returns 0 immediately, without draining the completion flag, and no
sequence of end-of-stream notifications and position queries ever
emits a completion notification or a seek. -/
theorem stream_position_no_drain :
    (∀ eng st, st.is_stream = true ∨ st.is_camera = true →
      (GetCurrentPosition eng st).1 = 0 ∧
      (GetCurrentPosition eng st).2.1 = st ∧
      (GetCurrentPosition eng st).2.2 = []) ∧
    (∀ eng st trace, st.is_stream = true ∨ st.is_camera = true →
      (runTrace eng st trace).2 = []) := by
  have hbase : ∀ (eng : Engine) (st : PlayerState),
      st.is_stream = true ∨ st.is_camera = true →
      (GetCurrentPosition eng st).1 = 0 ∧
      (GetCurrentPosition eng st).2.1 = st ∧
      (GetCurrentPosition eng st).2.2 = [] := by
    intro eng st h
    rcases h with h | h <;> simp [GetCurrentPosition, h]
  refine ⟨hbase, ?_⟩
  intro eng st trace
  induction trace generalizing st with
  | nil => intro _; simp [runTrace]
  | cons a rest ih =>
    intro h
    cases a with
    | eos =>
      have h' : (HandleGstMessageEos st).is_stream = true ∨
          (HandleGstMessageEos st).is_camera = true := h
      simp only [runTrace]
      exact ih _ h'
    | queryPos =>
      have hb := hbase eng st h
      simp only [runTrace]
      rw [hb.2.1, hb.2.2, ih _ h]
      simp

/-- Witness for C10: a camera player sees an EOS and two position
queries yet emits no events. -/
theorem stream_position_no_drain_witness :
    (runTrace ⟨some 7, none, true⟩ { initState [] with is_camera := true }
      [PlayerAction.eos, PlayerAction.queryPos, PlayerAction.queryPos]).2 = [] :=
  stream_position_no_drain.2 ⟨some 7, none, true⟩
    { initState [] with is_camera := true }
    [PlayerAction.eos, PlayerAction.queryPos, PlayerAction.queryPos] (Or.inr rfl)

/-! ## FrameSink
`HandoffHandler` (lines 656-680) and `GetFrameBuffer` (lines 418-427).
A GStreamer buffer is modelled by its byte contents (`List Nat`);
`gst_buffer_extract(buf, 0, dest, n)` copies `min n (size buf)` bytes
into `dest`.  The `new uint32_t[width * height]` reallocation yields
uninitialised memory, modelled by the `junk` oracle argument. -/

/-- `GstVideoPlayer::HandoffHandler` (lines 656-680): when the caps
dimensions of the delivered frame differ from the held ones, record
them and reallocate `pixels_` to `width*height` uint32 words; then
replace the held buffer (releasing the previous one) and notify
`OnNotifyFrameDecoded`.  `w`/`h` are the dimensions read from the
sink pad caps and `junk` is the uninitialised content of a fresh
allocation. -/
def HandoffHandler (st : PlayerState) (buf : List Nat) (w h : Int)
    (junk : List Nat) : PlayerState × List PlayerEvent :=
  let st1 :=
    if w ≠ st.width ∨ h ≠ st.height then
      { st with width := w, height := h, pixels := junk }
    else st
  ({ st1 with buffer := some buf }, [PlayerEvent.NotifyFrameDecoded])

/-- `GstVideoPlayer::GetFrameBuffer` (lines 418-427): under the shared
buffer lock, return null when no buffer has ever been delivered;
otherwise extract `width_ * height_ * 4` bytes of the held buffer into
`pixels_` and return `pixels_`. -/
def GetFrameBuffer (st : PlayerState) : Option (List Nat) × PlayerState :=
  match st.buffer with
  | none => (none, st)
  | some buf =>
    let n := (st.width * st.height * 4).toNat
    let k := min n buf.length
    let newPixels := buf.take k ++ st.pixels.drop k
    (some newPixels, { st with pixels := newPixels })

/-- C7: `GetFrameBuffer` returns null whenever no frame has ever been
delivered; after a delivery of a frame whose byte size matches its
caps dimensions (and given the source invariant that `pixels_` is
sized to the held dimensions), it returns exactly the delivered
`w*h*4` bytes, `w`/`h` being the dimensions of that most recent
delivery. -/
theorem GetFrameBuffer_spec :
    (∀ st, st.buffer = none → (GetFrameBuffer st).1 = none) ∧
    (∀ st buf (w h : Int) junk,
      st.pixels.length = (st.width * st.height * 4).toNat →
      junk.length = (w * h * 4).toNat →
      buf.length = (w * h * 4).toNat →
      (HandoffHandler st buf w h junk).1.width = w ∧
      (HandoffHandler st buf w h junk).1.height = h ∧
      (GetFrameBuffer (HandoffHandler st buf w h junk).1).1 = some buf ∧
      ∀ out, (GetFrameBuffer (HandoffHandler st buf w h junk).1).1 = some out →
        out.length = (w * h * 4).toNat) := by
  have hexact : ∀ (st : PlayerState) (buf : List Nat),
      st.buffer = some buf →
      buf.length = (st.width * st.height * 4).toNat →
      st.pixels.length = (st.width * st.height * 4).toNat →
      (GetFrameBuffer st).1 = some buf := by
    intro st buf hb hbuf hpix
    have hdropnil : st.pixels.drop buf.length = [] :=
      List.drop_eq_nil_of_le (le_of_eq (hpix.trans hbuf.symm))
    simp only [GetFrameBuffer, hb, ← hbuf, min_self, List.take_length, hdropnil,
      List.append_nil]
  constructor
  · intro st h
    simp [GetFrameBuffer, h]
  · intro st buf w h junk hpix hjunk hbuf
    by_cases hdim : w ≠ st.width ∨ h ≠ st.height
    · have hst : (HandoffHandler st buf w h junk).1 =
          { st with width := w, height := h, pixels := junk, buffer := some buf } := by
        simp [HandoffHandler, if_pos hdim]
      rw [hst]
      have hread := hexact
        { st with width := w, height := h, pixels := junk, buffer := some buf }
        buf rfl hbuf hjunk
      refine ⟨rfl, rfl, hread, ?_⟩
      intro out hout
      rw [hread] at hout
      rw [← Option.some_inj.mp hout, hbuf]
    · push_neg at hdim
      have hw : w = st.width := hdim.1
      have hh : h = st.height := hdim.2
      have hst : (HandoffHandler st buf w h junk).1 = { st with buffer := some buf } := by
        simp [HandoffHandler, hw, hh]
      rw [hst]
      have hbuf' : buf.length = (st.width * st.height * 4).toNat := by
        rw [← hw, ← hh]; exact hbuf
      have hread := hexact { st with buffer := some buf } buf rfl hbuf' hpix
      refine ⟨hw.symm, hh.symm, hread, ?_⟩
      intro out hout
      rw [hread] at hout
      rw [← Option.some_inj.mp hout, hbuf]

/-- Witness for C7: an initial player returns null; after delivering a
2x1 RGBA frame of 8 bytes the read returns exactly those 8 bytes. -/
theorem GetFrameBuffer_spec_witness :
    (GetFrameBuffer (initState [])).1 = none ∧
    (GetFrameBuffer
      (HandoffHandler (initState []) [1, 2, 3, 4, 5, 6, 7, 8] 2 1
        [0, 0, 0, 0, 0, 0, 0, 0]).1).1 = some [1, 2, 3, 4, 5, 6, 7, 8] := by
  constructor
  · exact GetFrameBuffer_spec.1 (initState []) rfl
  · exact (GetFrameBuffer_spec.2 (initState []) [1, 2, 3, 4, 5, 6, 7, 8] 2 1
      [0, 0, 0, 0, 0, 0, 0, 0] rfl rfl rfl).2.2.1

/-! ## SourceClassifier
The constructor's classification (gst_video_player.cc lines 27-42)
driven by the three `std::regex` members (header lines 86-88):
`stream_type_regex_  = "((?:rtp|rtmp|rtcp|rtsp|udp)://.*)"` (icase),
`stream_ext_regex_   = "((?:http|https)://.*(?:.m3u8|.flv))"` (icase),
`camera_path_regex_  = "(/dev/video[0-9])"` (icase).
`std::regex_match` anchors the whole string; with `icase` each
pattern letter also matches its other-case form; `.` matches any
character except a line terminator.  The patterns are embedded
semantically below. -/

/-- ECMAScript line terminators, which `.` does not match. -/
def isLineTerm (c : Char) : Bool :=
  c == '\n' || c == '\r' || c == '\u2028' || c == '\u2029'

/-- Case-fold a character as the `icase` comparison does (the pattern
letters involved are all basic latin). -/
def toLowerL (cs : List Char) : List Char := cs.map Char.toLower

/-- Match a lowercase literal pattern prefix case-insensitively. -/
def icasePre : List Char → List Char → Bool
  | [], _ => true
  | _ :: _, [] => false
  | p :: ps, c :: cs => (Char.toLower c == p) && icasePre ps cs

/-- The alternation `rtp|rtmp|rtcp|rtsp|udp`. -/
def schemePats : List (List Char) :=
  ["rtp".toList, "rtmp".toList, "rtcp".toList, "rtsp".toList, "udp".toList]

/-- The alternation `http|https`. -/
def httpPats : List (List Char) := ["http".toList, "https".toList]

/-- The final literals of `(?:.m3u8|.flv)` after the any-character
`.`. -/
def extPats : List (List Char) := ["m3u8".toList, "flv".toList]

/-- `regex_match(uri, stream_type_regex_)`: a full match of
`(?:rtp|rtmp|rtcp|rtsp|udp)://.*` — one of the schemes followed by
`://`, with every remaining character matched by `.`. -/
def streamTypeRegexMatch (cs : List Char) : Bool :=
  schemePats.any (fun sch =>
    let pre := sch ++ "://".toList
    icasePre pre cs && (cs.drop pre.length).all (fun c => !isLineTerm c))

/-- `regex_match(uri, stream_ext_regex_)`: a full match of
`(?:http|https)://.*(?:.m3u8|.flv)` — an HTTP(S) scheme, then any
characters, then an arbitrary (`.`-matched) character and the literal
`m3u8` or `flv` at the very end. -/
def streamExtRegexMatch (cs : List Char) : Bool :=
  httpPats.any (fun sch =>
    let pre := sch ++ "://".toList
    icasePre pre cs &&
      (let r := cs.drop pre.length
       extPats.any (fun suf =>
         decide (suf.length + 1 ≤ r.length) &&
         decide (toLowerL (r.drop (r.length - suf.length)) = suf) &&
         (r.take (r.length - suf.length)).all (fun c => !isLineTerm c))))

/-- `regex_match(uri, camera_path_regex_)`: a full match of
`/dev/video[0-9]`. -/
def cameraPathRegexMatch (cs : List Char) : Bool :=
  icasePre "/dev/video".toList cs &&
    (match cs.drop 10 with
     | [d] => decide ('0' ≤ d) && decide (d ≤ '9')
     | _ => false)

/-- `GstVideoPlayer::IsStreamUri` (lines 155-159). -/
def IsStreamUri (cs : List Char) : Bool :=
  streamTypeRegexMatch cs || streamExtRegexMatch cs

/-- `GstVideoPlayer::ParseUri` (lines 615-629): pass the identifier
through when `gst_uri_is_valid` holds; otherwise use
`gst_filename_to_uri`, falling back to the original identifier when
that fails.  Both gst calls are external collaborators, passed in as
oracles. -/
def ParseUri (gstUriIsValid : Bool) (filenameUri : Option (List Char))
    (uri : List Char) : List Char :=
  if gstUriIsValid then uri else filenameUri.getD uri

/-- The classification tag of a media source. -/
inductive SourceKind where
  | Camera
  | NetworkStream
  | LocalFile
deriving DecidableEq

/-- The constructor's classification order (lines 27-42): the camera
device-path pattern is checked first; otherwise the identifier is
normalised by `ParseUri` and `IsStreamUri` decides between
NetworkStream and LocalFile. -/
def classify (gstUriIsValid : Bool) (filenameUri : Option (List Char))
    (uri : List Char) : SourceKind :=
  if cameraPathRegexMatch uri then SourceKind.Camera
  else if IsStreamUri (ParseUri gstUriIsValid filenameUri uri) then SourceKind.NetworkStream
  else SourceKind.LocalFile

/-- An icase literal prefix matches any input whose case-folded form
begins with it. -/
lemma icasePre_append (xs ys : List Char) : icasePre (toLowerL xs) (xs ++ ys) = true := by
  induction xs with
  | nil => rfl
  | cons x xs ih =>
    simp only [toLowerL, List.map_cons, List.cons_append, icasePre, beq_self_eq_true,
      Bool.true_and]
    exact ih

lemma icasePre_of_eq (p xs ys : List Char) (h : toLowerL xs = p) :
    icasePre p (xs ++ ys) = true := h ▸ icasePre_append xs ys

lemma toLowerL_length (xs : List Char) : (toLowerL xs).length = xs.length :=
  List.length_map xs Char.toLower

lemma classify_eq_network (valid : Bool) (fileUri : Option (List Char))
    (uri : List Char) (hcam : cameraPathRegexMatch uri = false)
    (hstream : IsStreamUri (ParseUri valid fileUri uri) = true) :
    classify valid fileUri uri = SourceKind.NetworkStream := by
  unfold classify
  rw [hcam, hstream]
  simp

/-- C6: every identifier formed of a streaming-protocol scheme
(rtp/rtmp/rtcp/rtsp/udp, any case) followed by `://` and
line-terminator-free content, and every HTTP(S) identifier ending in
`.m3u8` or `.flv` (any case), classifies as NetworkStream, provided
the identifier does not match the camera device-path pattern (and is
a well-formed URI, so `ParseUri` passes it through). -/
theorem classify_stream_spec :
    (∀ (sch rest : List Char) (fileUri : Option (List Char)),
      toLowerL sch ∈ schemePats →
      rest.all (fun c => !isLineTerm c) = true →
      cameraPathRegexMatch (sch ++ "://".toList ++ rest) = false →
      classify true fileUri (sch ++ "://".toList ++ rest) = SourceKind.NetworkStream) ∧
    (∀ (sch mid ext : List Char) (fileUri : Option (List Char)),
      toLowerL sch ∈ httpPats →
      (toLowerL ext = ".m3u8".toList ∨ toLowerL ext = ".flv".toList) →
      (mid ++ ext).all (fun c => !isLineTerm c) = true →
      cameraPathRegexMatch (sch ++ "://".toList ++ mid ++ ext) = false →
      classify true fileUri (sch ++ "://".toList ++ mid ++ ext) = SourceKind.NetworkStream) := by
  constructor
  · intro sch rest fileUri hsch hrest hcam
    have hmatch : streamTypeRegexMatch (sch ++ "://".toList ++ rest) = true := by
      apply List.any_eq_true.mpr
      refine ⟨toLowerL sch, hsch, ?_⟩
      simp only [Bool.and_eq_true]
      constructor
      · have : toLowerL (sch ++ "://".toList) = toLowerL sch ++ "://".toList := by
          simp [toLowerL]
        have h2 := icasePre_of_eq (toLowerL sch ++ "://".toList)
          (sch ++ "://".toList) rest this
        simpa [List.append_assoc] using h2
      · have hlen : (toLowerL sch ++ "://".toList).length = (sch ++ "://".toList).length := by
          simp [toLowerL_length]
        rw [hlen, List.drop_left]
        exact hrest
    apply classify_eq_network _ _ _ hcam
    unfold IsStreamUri ParseUri
    rw [if_pos rfl, hmatch, Bool.true_or]
  · intro sch mid ext fileUri hsch hext hmidext hcam
    have hmatch : streamExtRegexMatch (sch ++ "://".toList ++ mid ++ ext) = true := by
      apply List.any_eq_true.mpr
      refine ⟨toLowerL sch, hsch, ?_⟩
      simp only [Bool.and_eq_true]
      constructor
      · have : toLowerL (sch ++ "://".toList) = toLowerL sch ++ "://".toList := by
          simp [toLowerL]
        have h2 := icasePre_of_eq (toLowerL sch ++ "://".toList)
          (sch ++ "://".toList) (mid ++ ext) this
        simpa [List.append_assoc] using h2
      · have hlen : (toLowerL sch ++ "://".toList).length = (sch ++ "://".toList).length := by
          simp [toLowerL_length]
        have hdrop : (sch ++ "://".toList ++ mid ++ ext).drop
            (toLowerL sch ++ "://".toList).length = mid ++ ext := by
          rw [hlen]
          rw [show sch ++ "://".toList ++ mid ++ ext =
            (sch ++ "://".toList) ++ (mid ++ ext) by simp [List.append_assoc]]
          exact List.drop_left _ _
        rw [hdrop]
        apply List.any_eq_true.mpr
        rcases hext with hext | hext
        · have hextlen : ext.length = 5 := by
            have := toLowerL_length ext
            rw [hext] at this
            simpa using this.symm
          refine ⟨"m3u8".toList, by simp [extPats], ?_⟩
          have hrlen : (mid ++ ext).length = mid.length + 5 := by
            simp [hextlen]
          simp only [Bool.and_eq_true, decide_eq_true_eq]
          refine ⟨⟨?_, ?_⟩, ?_⟩
          · simp [hrlen]
          · have hsub : (mid ++ ext).length - ("m3u8".toList).length = mid.length + 1 := by
              simp [hrlen]
            rw [hsub]
            have hd : (mid ++ ext).drop (mid.length + 1) = ext.drop 1 := by
              rw [← List.drop_drop]
              rw [List.drop_left]
            rw [hd]
            have : toLowerL (ext.drop 1) = (toLowerL ext).drop 1 := by
              simp [toLowerL, List.map_drop]
            rw [this, hext]
            rfl
          · apply List.all_eq_true.mpr
            intro c hc
            have hcmem : c ∈ mid ++ ext := List.mem_of_mem_take hc
            exact List.all_eq_true.mp hmidext c hcmem
        · have hextlen : ext.length = 4 := by
            have := toLowerL_length ext
            rw [hext] at this
            simpa using this.symm
          refine ⟨"flv".toList, by simp [extPats], ?_⟩
          have hrlen : (mid ++ ext).length = mid.length + 4 := by
            simp [hextlen]
          simp only [Bool.and_eq_true, decide_eq_true_eq]
          refine ⟨⟨?_, ?_⟩, ?_⟩
          · simp [hrlen]
          · have hsub : (mid ++ ext).length - ("flv".toList).length = mid.length + 1 := by
              simp [hrlen]
            rw [hsub]
            have hd : (mid ++ ext).drop (mid.length + 1) = ext.drop 1 := by
              rw [← List.drop_drop]
              rw [List.drop_left]
            rw [hd]
            have : toLowerL (ext.drop 1) = (toLowerL ext).drop 1 := by
              simp [toLowerL, List.map_drop]
            rw [this, hext]
            rfl
          · apply List.all_eq_true.mpr
            intro c hc
            have hcmem : c ∈ mid ++ ext := List.mem_of_mem_take hc
            exact List.all_eq_true.mp hmidext c hcmem
    apply classify_eq_network _ _ _ hcam
    unfold IsStreamUri ParseUri
    rw [if_pos rfl, hmatch, Bool.or_true]

/-- Witness for C6: `RTSP://example.com/live` and
`http://host/playlist.M3U8` both classify as NetworkStream. -/
theorem classify_stream_spec_witness :
    classify true none ("RTSP".toList ++ "://".toList ++ "example.com/live".toList) =
      SourceKind.NetworkStream ∧
    classify true none
      ("http".toList ++ "://".toList ++ "host/playlist".toList ++ ".M3U8".toList) =
      SourceKind.NetworkStream := by
  constructor
  · exact classify_stream_spec.1 "RTSP".toList "example.com/live".toList none
      (by decide) (by decide) (by decide)
  · exact classify_stream_spec.2 "http".toList "host/playlist".toList ".M3U8".toList none
      (by decide) (Or.inl (by decide)) (by decide) (by decide)

/-! ## NetworkStream query parameters and output caps
`SetStreamDataFromUrl` (gst_video_player.cc lines 324-366) and the
caps-string construction at the head of `CreatePipeline`
(lines 432-459 together with line 526). -/

/-- `uri.find_last_of('?')` followed by taking the suffix after that
position; `none` models `std::string::npos` (the function then logs
and returns false). -/
def afterLastQ (cs : List Char) : Option (List Char) :=
  if cs.any (fun c => c == '?') then
    some ((cs.reverse.takeWhile (fun c => c != '?')).reverse)
  else none

/-- The chunks the `while` loop of lines 335-343 cuts the parameter
suffix into: each `uri.find('&', start)` / `substr` round yields the
text up to the next `'&'`, the final round (where `find` returns
`npos`) yields the remaining text. -/
def paramChunks : List Char → List (List Char)
  | [] => [[]]
  | c :: rest =>
    if c == '&' then [] :: paramChunks rest
    else
      match paramChunks rest with
      | [] => [[c]]
      | chunk :: more => (c :: chunk) :: more

/-- Lines 339-341: split one chunk at its first `'='` into key and
value.  When no `'='` occurs, `p_pos` is `npos`, `substr(0, npos)`
yields the whole chunk and `substr(npos + 1) = substr(0)` also yields
the whole chunk. -/
def parsePair (p : List Char) : List Char × List Char :=
  match p.dropWhile (fun c => c != '=') with
  | [] => (p, p)
  | _ :: v => (p.takeWhile (fun c => c != '='), v)

/-- The `std::unordered_map::insert` calls keep the first value
inserted for a key; lookup therefore finds the first chunk with the
given key. -/
def lookupP (ps : List (List Char × List Char)) (k : List Char) : Option (List Char) :=
  match ps with
  | [] => none
  | (a, b) :: rest => if a = k then some b else lookupP rest k

/-- The parameter map built by lines 333-343.  The loop is entered only
when the initial `uri.find('&', param_start_pos)` is not `npos`; with
no `'&'` present no parameter is ever inserted. -/
def parseParams (t : List Char) : List (List Char × List Char) :=
  if t.any (fun c => c == '&') then (paramChunks t).map parsePair else []

/-- Whitespace as recognised by `std::stoi`/`strtol`. -/
def isSpaceC (c : Char) : Bool :=
  c == ' ' || c == '\t' || c == '\n' || c == '\x0b' || c == '\x0c' || c == '\r'

/-- Numeric value of a digit string. -/
def digitsVal (ds : List Char) : Nat :=
  ds.foldl (fun a c => a * 10 + (c.toNat - 48)) 0

/-- `std::stoi`: skip leading whitespace, optional sign, then the
longest digit prefix; throws (`none`) when no digit follows. -/
def stoi (s : List Char) : Option Int :=
  let s1 := s.dropWhile isSpaceC
  let signed : Bool × List Char :=
    if s1.head? = some '-' then (true, s1.tail)
    else if s1.head? = some '+' then (false, s1.tail)
    else (false, s1)
  let ds := signed.2.takeWhile Char.isDigit
  if ds.isEmpty then none
  else if signed.1 then some (-(digitsVal ds : Int)) else some (digitsVal ds : Int)

/-- `GstVideoPlayer::SetStreamDataFromUrl` (lines 324-366): `false`
when the identifier holds no `'?'`; otherwise parse the parameter
suffix, then set `width_`/`height_` from the catalog-normalised `w`/`h`
values when present (each missing one only logs a warning) and
`aspect_ratio_` from `o` (`"l"` means `"16/9"`, anything else
`"9/16"`).  `none` models `std::stoi` throwing or the out-of-catalog
`lower_bound` dereference. -/
def SetStreamDataFromUrl (st : PlayerState) (uri : List Char) :
    Option (Bool × PlayerState) :=
  match afterLastQ uri with
  | none => some (false, st)
  | some t =>
    let params := parseParams t
    let st1 : Option PlayerState :=
      match lookupP params ['w'] with
      | none => some st
      | some v => do
          let n ← stoi v
          let r ← NormalizeResolutionValue n
          pure { st with width := r }
    match st1 with
    | none => none
    | some s1 =>
      let st2 : Option PlayerState :=
        match lookupP params ['h'] with
        | none => some s1
        | some v => do
            let n ← stoi v
            let r ← NormalizeResolutionValue n
            pure { s1 with height := r }
      match st2 with
      | none => none
      | some s2 =>
        let s3 :=
          match lookupP params ['o'] with
          | none => s2
          | some v =>
            if v = ['l'] then { s2 with aspect_ratio := "16/9" }
            else { s2 with aspect_ratio := "9/16" }
        some (true, s3)

/-- The caps-string construction of `CreatePipeline` (lines 432-459):
with the accelerated `vapostproc` element available the DMABuf caps are
chosen, extended with the probe's aspect hint when inconsistent; for a
stream source whose identifier parses (`SetStreamDataFromUrl` true)
they are replaced outright by explicit width/height caps with a 1:1
pixel aspect ratio.  Without `vapostproc` the generic caps are used.
Returns the final caps string and the updated state. -/
def CreatePipelineCapsStr (vapostprocAvailable : Bool) (st : PlayerState) :
    Option (String × PlayerState) :=
  if vapostprocAvailable then
    let caps0 := "video/x-raw(memory:DMABuf),format=RGBA"
    let caps1 := if st.is_inconsistent then caps0 ++ ", pixel-aspect-ratio=" ++ st.aspect_ratio
                 else caps0
    if st.is_stream then
      match SetStreamDataFromUrl st st.uri with
      | none => none
      | some (false, st') => some (caps1, st')
      | some (true, st') =>
        some ("video/x-raw, format=RGBA" ++ ", width=" ++ toString st'.width ++
              ", height=" ++ toString st'.height ++ ", pixel-aspect-ratio=1/1", st')
    else some (caps1, st)
  else some ("video/x-raw,format=RGBA", st)

/-! ### Parsing lemmas for the query-parameter convention -/

lemma digit_char_props (c : Char) (h : c.isDigit = true) :
    (c == '&') = false ∧ (c == '?') = false ∧ (c != '=') = true ∧
    isSpaceC c = false ∧ c ≠ '-' ∧ c ≠ '+' := by
  have hne : ∀ d : Char, d.isDigit = false → c ≠ d := by
    intro d hd hEq
    rw [← hEq] at hd
    rw [h] at hd
    cases hd
  refine ⟨beq_eq_false_iff_ne.mpr (hne '&' (by decide)),
          beq_eq_false_iff_ne.mpr (hne '?' (by decide)),
          bne_iff_ne.mpr (hne '=' (by decide)), ?_,
          hne '-' (by decide), hne '+' (by decide)⟩
  by_contra hsp
  rw [Bool.not_eq_false] at hsp
  simp only [isSpaceC, Bool.or_eq_true, beq_iff_eq, or_assoc] at hsp
  rcases hsp with h' | h' | h' | h' | h' | h' <;> exact hne _ (by decide) h'

lemma afterLastQ_append (a b : List Char) (hb : ∀ x ∈ b, x ≠ '?') :
    afterLastQ (a ++ '?' :: b) = some b := by
  have hmem : '?' ∈ a ++ '?' :: b := List.mem_append_right a (List.mem_cons_self _ _)
  have hany : (a ++ '?' :: b).any (fun c => c == '?') = true :=
    List.any_eq_true.mpr ⟨'?', hmem, beq_self_eq_true _⟩
  have hrev : (a ++ '?' :: b).reverse = b.reverse ++ '?' :: a.reverse := by
    simp
  have htake : ((a ++ '?' :: b).reverse.takeWhile (fun c => c != '?')) = b.reverse := by
    rw [hrev, List.takeWhile_append_of_pos]
    · rw [List.takeWhile_cons]
      simp
    · intro x hx
      exact bne_iff_ne.mpr (hb x (List.mem_reverse.mp hx))
  simp only [afterLastQ, hany, if_true, htake, List.reverse_reverse]

lemma paramChunks_no_amp (t : List Char) (h : ∀ x ∈ t, (x == '&') = false) :
    paramChunks t = [t] := by
  induction t with
  | nil => rfl
  | cons c rest ih =>
    have hc := h c (List.mem_cons_self _ _)
    have hr := ih (fun x hx => h x (List.mem_cons_of_mem _ hx))
    simp [paramChunks, hc, hr]

lemma paramChunks_append (A rest : List Char) (hA : ∀ x ∈ A, (x == '&') = false) :
    paramChunks (A ++ '&' :: rest) = A :: paramChunks rest := by
  induction A with
  | nil => simp [paramChunks]
  | cons a A ih =>
    have ha := hA a (List.mem_cons_self _ _)
    have hr := ih (fun x hx => hA x (List.mem_cons_of_mem _ hx))
    simp [paramChunks, ha, hr]

lemma parsePair_eq (k v : List Char) (hk : ∀ x ∈ k, (x != '=') = true) :
    parsePair (k ++ '=' :: v) = (k, v) := by
  have hdrop : (k ++ '=' :: v).dropWhile (fun c => c != '=') = '=' :: v := by
    rw [List.dropWhile_append_of_pos hk, List.dropWhile_cons]
    simp
  have htake : (k ++ '=' :: v).takeWhile (fun c => c != '=') = k := by
    rw [List.takeWhile_append_of_pos hk, List.takeWhile_cons]
    simp
  simp [parsePair, hdrop, htake]

lemma stoi_digits (c : Char) (cs : List Char)
    (h : ∀ x ∈ c :: cs, x.isDigit = true) :
    stoi (c :: cs) = some ((digitsVal (c :: cs) : Nat) : Int) := by
  have hc := digit_char_props c (h c (List.mem_cons_self _ _))
  have hdropsp : (c :: cs).dropWhile isSpaceC = c :: cs := by
    rw [List.dropWhile_cons]
    simp [hc.2.2.2.1]
  have htake : (c :: cs).takeWhile Char.isDigit = c :: cs :=
    List.takeWhile_eq_self_iff.mpr h
  simp only [stoi, hdropsp, List.head?_cons]
  simp [hc.2.2.2.2.1, hc.2.2.2.2.2, htake]

/-- The parameter map extracted from a `?w=..&h=..&o=..` suffix. -/
lemma parseParams_who (wds hds ov : List Char)
    (hwd : ∀ x ∈ wds, x.isDigit = true) (hhd : ∀ x ∈ hds, x.isDigit = true)
    (hov : ∀ x ∈ ov, x ≠ '&') :
    parseParams (('w' :: '=' :: wds) ++ '&' :: (('h' :: '=' :: hds) ++ '&' :: ('o' :: '=' :: ov)))
      = [(['w'], wds), (['h'], hds), (['o'], ov)] := by
  have hA1 : ∀ x ∈ 'w' :: '=' :: wds, (x == '&') = false := by
    intro x hx
    rcases List.mem_cons.mp hx with rfl | hx
    · decide
    rcases List.mem_cons.mp hx with rfl | hx
    · decide
    · exact (digit_char_props x (hwd x hx)).1
  have hA2 : ∀ x ∈ 'h' :: '=' :: hds, (x == '&') = false := by
    intro x hx
    rcases List.mem_cons.mp hx with rfl | hx
    · decide
    rcases List.mem_cons.mp hx with rfl | hx
    · decide
    · exact (digit_char_props x (hhd x hx)).1
  have hA3 : ∀ x ∈ 'o' :: '=' :: ov, (x == '&') = false := by
    intro x hx
    rcases List.mem_cons.mp hx with rfl | hx
    · decide
    rcases List.mem_cons.mp hx with rfl | hx
    · decide
    · exact beq_eq_false_iff_ne.mpr (hov x hx)
  have hamp : (('w' :: '=' :: wds) ++ '&' ::
      (('h' :: '=' :: hds) ++ '&' :: ('o' :: '=' :: ov))).any (fun c => c == '&') = true :=
    List.any_eq_true.mpr ⟨'&', List.mem_append_right _ (List.mem_cons_self _ _), by decide⟩
  have e1 : parsePair ('w' :: '=' :: wds) = (['w'], wds) :=
    parsePair_eq ['w'] wds (by decide)
  have e2 : parsePair ('h' :: '=' :: hds) = (['h'], hds) :=
    parsePair_eq ['h'] hds (by decide)
  have e3 : parsePair ('o' :: '=' :: ov) = (['o'], ov) :=
    parsePair_eq ['o'] ov (by decide)
  unfold parseParams
  rw [if_pos hamp, paramChunks_append _ _ hA1, paramChunks_append _ _ hA2,
    paramChunks_no_amp _ hA3]
  simp only [List.map_cons, List.map_nil, e1, e2, e3]

/-- C2: for a NetworkStream source whose identifier carries `w`, `h`
and `o` query parameters and with the accelerated `vapostproc` element
available, the constructed caps are the explicit
`width=<normalized w>, height=<normalized h>, pixel-aspect-ratio=1/1`
caps, replacing the accelerated defaults; in particular for
`...?w=1000&h=3000&o=l` they use width=1080 and height=3480 (the
normalization of 3000). -/
theorem CreatePipelineCapsStr_stream_spec :
    (∀ (st : PlayerState) (base wds hds ov : List Char) (wN hN : Int),
      st.is_stream = true →
      st.uri = base ++ '?' ::
        (('w' :: '=' :: wds) ++ '&' :: (('h' :: '=' :: hds) ++ '&' :: ('o' :: '=' :: ov))) →
      wds ≠ [] → (∀ x ∈ wds, x.isDigit = true) →
      hds ≠ [] → (∀ x ∈ hds, x.isDigit = true) →
      (∀ x ∈ ov, x ≠ '&' ∧ x ≠ '?') →
      NormalizeResolutionValue ((digitsVal wds : Nat) : Int) = some wN →
      NormalizeResolutionValue ((digitsVal hds : Nat) : Int) = some hN →
      ∃ st', CreatePipelineCapsStr true st =
        some ("video/x-raw, format=RGBA" ++ ", width=" ++ toString wN ++
              ", height=" ++ toString hN ++ ", pixel-aspect-ratio=1/1", st') ∧
        st'.width = wN ∧ st'.height = hN) ∧
    (CreatePipelineCapsStr true
        { initState ("http://x/stream.m3u8?w=1000&h=3000&o=l".toList) with
            is_stream := true }).map Prod.fst =
      some "video/x-raw, format=RGBA, width=1080, height=3480, pixel-aspect-ratio=1/1" := by
  constructor
  · intro st base wds hds ov wN hN hstream huri hwne hwd hhne hhd hov hw hh
    have ht? : ∀ x ∈ ('w' :: '=' :: wds) ++ '&' ::
        (('h' :: '=' :: hds) ++ '&' :: ('o' :: '=' :: ov)), x ≠ '?' := by
      intro x hx
      simp only [List.mem_append, List.mem_cons, or_assoc] at hx
      rcases hx with rfl | rfl | hx | rfl | rfl | rfl | hx | rfl | rfl | rfl | hx
      · decide
      · decide
      · exact beq_eq_false_iff_ne.mp (digit_char_props x (hwd x hx)).2.1
      · decide
      · decide
      · decide
      · exact beq_eq_false_iff_ne.mp (digit_char_props x (hhd x hx)).2.1
      · decide
      · decide
      · decide
      · exact (hov x hx).2
    have hparams := parseParams_who wds hds ov hwd hhd (fun x hx => (hov x hx).1)
    have hlw : lookupP [(['w'], wds), (['h'], hds), (['o'], ov)] ['w'] = some wds := by
      simp [lookupP]
    have hlh : lookupP [(['w'], wds), (['h'], hds), (['o'], ov)] ['h'] = some hds := by
      simp [lookupP]
    have hlo : lookupP [(['w'], wds), (['h'], hds), (['o'], ov)] ['o'] = some ov := by
      simp [lookupP]
    obtain ⟨wc, wcs, rfl⟩ := List.exists_cons_of_ne_nil hwne
    obtain ⟨hc2, hcs2, rfl⟩ := List.exists_cons_of_ne_nil hhne
    have hstw := stoi_digits wc wcs hwd
    have hsth := stoi_digits hc2 hcs2 hhd
    have hset : ∃ st', SetStreamDataFromUrl st st.uri = some (true, st') ∧
        st'.width = wN ∧ st'.height = hN := by
      rw [huri]
      by_cases hol : ov = ['l']
      · subst hol
        refine ⟨{ st with width := wN, height := hN, aspect_ratio := "16/9" }, ?_, rfl, rfl⟩
        simp only [SetStreamDataFromUrl, afterLastQ_append _ _ ht?, hparams, hlw, hlh, hlo,
          hstw, hsth, hw, hh, Option.bind_eq_bind, Option.some_bind, Option.pure_def,
          if_true, if_pos rfl]
      · refine ⟨{ st with width := wN, height := hN, aspect_ratio := "9/16" }, ?_, rfl, rfl⟩
        simp only [SetStreamDataFromUrl, afterLastQ_append _ _ ht?, hparams, hlw, hlh, hlo,
          hstw, hsth, hw, hh, Option.bind_eq_bind, Option.some_bind, Option.pure_def,
          if_neg hol]
    obtain ⟨st', hset', hwidth, hheight⟩ := hset
    refine ⟨st', ?_, hwidth, hheight⟩
    simp only [CreatePipelineCapsStr, hstream, hset', if_true, hwidth, hheight]
  · rfl

/-- Witness for C2 at `http://x/stream.m3u8?w=1000&h=3000&o=l`. -/
theorem CreatePipelineCapsStr_stream_spec_witness :
    ∃ st', CreatePipelineCapsStr true
        { initState ("http://x/stream.m3u8".toList ++ '?' ::
            (('w' :: '=' :: "1000".toList) ++ '&' ::
              (('h' :: '=' :: "3000".toList) ++ '&' :: ('o' :: '=' :: "l".toList)))) with
          is_stream := true } =
      some ("video/x-raw, format=RGBA" ++ ", width=" ++ toString (1080 : Int) ++
            ", height=" ++ toString (3480 : Int) ++ ", pixel-aspect-ratio=1/1", st') ∧
      st'.width = 1080 ∧ st'.height = 3480 :=
  CreatePipelineCapsStr_stream_spec.1 _ "http://x/stream.m3u8".toList
    "1000".toList "3000".toList "l".toList 1080 3480 rfl rfl
    (by decide) (by decide) (by decide) (by decide) (by decide) (by decide) (by decide)

end GstPlayer
